import Mathlib

/-!
Verification of the wrapper-transaction subsystem of the repository
(`shared/src/types/transaction.rs`): gas-limit quantization, the
encrypted payload, and the WrapperTx construction / signing /
validation / decryption protocol.

The Rust code is shallowly embedded.  Machine integers (`u64`) are
modelled as `Nat` with explicit `% 2 ^ 64` where overflow matters; a
checked (panicking) variant is given as an `Option`-valued function
where a claim needs debug semantics.  Byte strings are `List Nat`
(symbolic byte tokens).  The external cryptographic collaborators
(the `tpke` pairing encryption, SHA-256, ed25519 signatures) and the
repository modules that are not part of the provided sources (the
`proto::Tx` envelope, `SignedTxData`) are modelled from the spec's
interface contracts, symbolically but executably; every such
definition is marked `Modelled from the spec:` in its doc comment.
-/

namespace Namada

/-- The `u64` modulus: Rust release-mode arithmetic wraps modulo `2 ^ 64`. -/
def U64 : Nat := 2 ^ 64

/-- Source constant `GAS_LIMIT_RESOLUTION = 1_000_000`. -/
def GAS_LIMIT_RESOLUTION : Nat := 1000000

/-! ## Canonical binary (Borsh-style) serialization primitives

Borsh writes a `u64` as a fixed 8-byte little-endian group, a
`Vec<u8>` as a `u32` length followed by the raw bytes, and an
`Option` as a `0`/`1` tag followed by the payload.  We model a byte
string as `List Nat` and keep each fixed-width integer group as a
single list element; a `Vec` is length-prefixed exactly as in Borsh,
which is what makes the encoding parseable (and hence injective). -/

/-- Serialize one fixed-width integer (a Borsh `u64` group). -/
def serNat (n : Nat) : List Nat := [n]

/-- Read back one fixed-width integer, returning the remaining input. -/
def parseNat : List Nat → Option (Nat × List Nat)
  | [] => none
  | x :: rest => some (x, rest)

/-- Serialize a byte string as Borsh serializes a `Vec<u8>`: length first. -/
def serBytes (bs : List Nat) : List Nat := bs.length :: bs

/-- Take exactly `n` elements from the input, or fail. -/
def takeExact : Nat → List Nat → Option (List Nat × List Nat)
  | 0, rest => some ([], rest)
  | _ + 1, [] => none
  | n + 1, x :: rest =>
    match takeExact n rest with
    | none => none
    | some (l, r) => some (x :: l, r)

/-- Read back a length-prefixed byte string. -/
def parseBytes : List Nat → Option (List Nat × List Nat)
  | [] => none
  | n :: rest => takeExact n rest

/-- Serialize an `Option<Vec<u8>>` as Borsh does: a `0`/`1` tag, then the vector. -/
def serOptBytes : Option (List Nat) → List Nat
  | none => [0]
  | some bs => 1 :: serBytes bs

/-- Read back an `Option<Vec<u8>>`. -/
def parseOptBytes : List Nat → Option (Option (List Nat) × List Nat)
  | 0 :: rest => some (none, rest)
  | 1 :: rest =>
    match parseBytes rest with
    | none => none
    | some (bs, r) => some (some bs, r)
  | _ => none

theorem takeExact_append (l r : List Nat) :
    takeExact l.length (l ++ r) = some (l, r) := by
  induction l with
  | nil => rfl
  | cons x xs ih => simp [takeExact, ih]

theorem parseNat_ser (n : Nat) (r : List Nat) :
    parseNat (serNat n ++ r) = some (n, r) := rfl

theorem parseBytes_ser (l r : List Nat) :
    parseBytes (serBytes l ++ r) = some (l, r) := by
  simp [serBytes, parseBytes, takeExact_append]

theorem parseOptBytes_ser (o : Option (List Nat)) (r : List Nat) :
    parseOptBytes (serOptBytes o ++ r) = some (o, r) := by
  cases o with
  | none => rfl
  | some bs => simp [serOptBytes, parseOptBytes, parseBytes_ser]

/-! ## External cryptographic collaborators (symbolic models)

The spec (§6) lists the encryption primitive, SHA-256 and the ed25519
signature scheme as consumed external interfaces that are not
reimplemented by this core.  We model them symbolically (Dolev-Yao
style) but executably, faithful to their contracts. -/

/-- Modelled from the spec: the SHA-256 digest (`sha2` crate), idealized
as a collision-free commitment function on byte strings. -/
def sha256 (bs : List Nat) : List Nat := bs.length :: bs

theorem sha256_inj {a b : List Nat} (h : sha256 a = sha256 b) : a = b := by
  simp only [sha256, List.cons.injEq] at h
  exact h.2

/-- Modelled from the spec: the key-dependent stream mask of the `tpke`
encryption primitive.  Any function of the key and the per-encryption
randomness works for the symbolic model. -/
def encMask (key nonce : Nat) : Nat := (key + 1) * (nonce + 1)

/-- Modelled from the spec: the pairing relation the ciphertext
well-formedness check verifies between the nonce, the ciphertext bytes
and the authentication tag (no key needed). -/
def authTagOf (nonce : Nat) (ciphertext : List Nat) : Nat :=
  ciphertext.foldl (fun a b => a + b + 1) nonce

/-- Source `EncryptedTx` (a wrapper around `tpke::Ciphertext`):
`{nonce, ciphertext, auth_tag}` with the two curve elements modelled
as symbolic tokens. -/
structure EncryptedTx where
  nonce : Nat
  ciphertext : List Nat
  auth_tag : Nat
deriving DecidableEq, Repr

/-- Source `EncryptedTx::encrypt` / `tpke::encrypt`, modelled from the
spec: randomized public-key encryption; the fresh randomness drawn from
the thread RNG is passed explicitly. -/
def EncryptedTx.encrypt (msg : List Nat) (pubkey : Nat) (rand : Nat) : EncryptedTx :=
  { nonce := rand
    ciphertext := msg.map (fun b => b ^^^ encMask pubkey rand)
    auth_tag := authTagOf rand (msg.map (fun b => b ^^^ encMask pubkey rand)) }

/-- Source `EncryptedTx::decrypt` / `tpke::decrypt`, modelled from the
spec: deterministic; recovers the plaintext with the matching private
key (and produces garbage bytes under a non-matching key). -/
def EncryptedTx.decrypt (c : EncryptedTx) (privkey : Nat) : List Nat :=
  c.ciphertext.map (fun b => b ^^^ encMask privkey c.nonce)

/-- Source `Ciphertext::check`, modelled from the spec: the structural
pairing-equation validity check, requiring no key. -/
def EncryptedTx.check (c : EncryptedTx) : Bool :=
  c.auth_tag == authTagOf c.nonce c.ciphertext

theorem encrypt_decrypt (msg : List Nat) (key rand : Nat) :
    (EncryptedTx.encrypt msg key rand).decrypt key = msg := by
  simp only [EncryptedTx.encrypt, EncryptedTx.decrypt, List.map_map]
  have h : ∀ b ∈ msg, ((fun b => b ^^^ encMask key rand) ∘
      fun b => b ^^^ encMask key rand) b = b := by
    intro b _
    simp [Nat.xor_assoc]
  rw [List.map_congr_left h]
  exact List.map_id msg

theorem encrypt_check (msg : List Nat) (key rand : Nat) :
    (EncryptedTx.encrypt msg key rand).check = true := by
  simp [EncryptedTx.encrypt, EncryptedTx.check]

/-- The fixed encryption public key used by `WrapperTx::new` (the
source's `G1Affine::prime_subgroup_generator()` placeholder — see the
`TODO: Look up current public key from storage`). -/
def encGenPub : Nat := 0

/-- The private key matching `encGenPub` (the source tests' trivial
keypair: the `G2Affine` prime-subgroup generator). -/
def encGenPriv : Nat := 0

/-- Modelled from the spec: an ed25519 signature
(`types::key::ed25519`, not among the provided sources), idealized
symbolically: it determines the signing key and the exact signed
message, and verifies only against those. -/
structure Sig where
  signer : Nat
  message : List Nat
deriving DecidableEq, Repr

/-- Modelled from the spec: producing an ed25519 signature over raw
bytes with a keypair (the keypair is a symbolic token whose public
half is the token itself). -/
def signBytes (keypair : Nat) (msg : List Nat) : Sig :=
  { signer := keypair, message := msg }

/-- The diagnostic the repository's ed25519 verifier reports on a bad
signature (the exact string the source test
`test_malleability_attack_detection` expects inside `SigError`). -/
def sigFailureMsg : String := "Signature verification failed: signature error"

/-- Modelled from the spec: `verify_signature_raw(pk, bytes, sig)`
from `types::key::ed25519` — `Ok(())` iff `sig` was produced by the
keypair of `pk` over exactly `bytes`, an error carrying the verifier's
diagnostic otherwise. -/
def verify_signature_raw (pk : Nat) (msg : List Nat) (sig : Sig) :
    Except String Unit :=
  if sig.signer = pk ∧ sig.message = msg then Except.ok ()
  else Except.error sigFailureMsg

/-! ## GasLimit (source lines 166–254) -/

/-- Source `GasLimit`: stores only the multiple of
`GAS_LIMIT_RESOLUTION`, not the raw amount. -/
structure GasLimit where
  multiplier : Nat
deriving DecidableEq, Repr

/-- Source `impl From<u64> for GasLimit`: round the input up to the
next highest multiple of `GAS_LIMIT_RESOLUTION` (the source avoids
floating-point ceil by comparing `RESOLUTION * (amount / RESOLUTION)`
with `amount`). -/
def GasLimit.ofU64 (amount : Nat) : GasLimit :=
  if GAS_LIMIT_RESOLUTION * (amount / GAS_LIMIT_RESOLUTION) < amount then
    { multiplier := amount / GAS_LIMIT_RESOLUTION + 1 }
  else
    { multiplier := amount / GAS_LIMIT_RESOLUTION }

/-- Source `impl From<&GasLimit> for u64` / `impl From<GasLimit> for u64`:
`multiplier * GAS_LIMIT_RESOLUTION`, a `u64` product, hence reduced
modulo `2 ^ 64` (Rust release-mode wrapping). -/
def GasLimit.toU64 (gl : GasLimit) : Nat :=
  gl.multiplier * GAS_LIMIT_RESOLUTION % U64

/-- Source `GasLimit::refund_amount` under wrapping (release) `u64`
semantics.  The first guard subtracts `GAS_LIMIT_RESOLUTION` from
`u64::from(self)` before any branch is taken. -/
def GasLimit.refund_amount (gl : GasLimit) (used_gas : Nat) : Nat :=
  if used_gas < (gl.toU64 + U64 - GAS_LIMIT_RESOLUTION) % U64 then
    GAS_LIMIT_RESOLUTION
  else if gl.toU64 ≤ used_gas then
    0
  else
    gl.toU64 - used_gas

/-- Source `GasLimit::refund_amount` under checked (debug) `u64`
semantics: `none` models an arithmetic-overflow panic, either in
`u64::from(self)` itself or in the first guard's subtraction
`u64::from(self) - GAS_LIMIT_RESOLUTION`. -/
def GasLimit.refundAmountChecked (gl : GasLimit) (used_gas : Nat) : Option Nat :=
  if U64 ≤ gl.multiplier * GAS_LIMIT_RESOLUTION then none
  else if gl.multiplier * GAS_LIMIT_RESOLUTION < GAS_LIMIT_RESOLUTION then none
  else if used_gas < gl.multiplier * GAS_LIMIT_RESOLUTION - GAS_LIMIT_RESOLUTION then
    some GAS_LIMIT_RESOLUTION
  else if gl.multiplier * GAS_LIMIT_RESOLUTION ≤ used_gas then some 0
  else some (gl.multiplier * GAS_LIMIT_RESOLUTION - used_gas)

/-- Source `impl BorshSerialize for GasLimit`: writes the expanded
raw `u64` value `u64::from(self)`, not the multiplier. -/
def GasLimit.borshSer (gl : GasLimit) : List Nat := serNat gl.toU64

/-- Source `impl BorshDeserialize for GasLimit`: reads a raw `u64` and
re-derives the multiplier through the rounding-up conversion. -/
def parseGasLimit (bs : List Nat) : Option (GasLimit × List Nat) :=
  match parseNat bs with
  | none => none
  | some (raw, r) => some (GasLimit.ofU64 raw, r)

/-- Source serde attribute `#[serde(into = "u64")]` on `GasLimit`: the
self-describing text form is the decimal rendering of the expanded
`u64` value. -/
def GasLimit.serdeText (gl : GasLimit) : String := Nat.repr gl.toU64

/-- Modelled from the spec: the text decoder's decimal-integer scan
(serde_json reading a `u64`), digit by digit. -/
def parseDecimalCore : List Char → Nat → Option Nat
  | [], acc => some acc
  | c :: cs, acc =>
    if 48 ≤ c.toNat ∧ c.toNat ≤ 57 then
      parseDecimalCore cs (acc * 10 + (c.toNat - 48))
    else none

/-- Modelled from the spec: parse a non-empty decimal integer. -/
def parseDecimal (s : String) : Option Nat :=
  match s.data with
  | [] => none
  | cs => parseDecimalCore cs 0

/-- Source serde attribute `#[serde(from = "u64")]` on `GasLimit`:
parse a decimal `u64`, then round up through `From<u64>`. -/
def GasLimit.fromSerdeText (s : String) : Option GasLimit :=
  match parseDecimal s with
  | none => none
  | some n => if n < U64 then some (GasLimit.ofU64 n) else none

/-- Source `Fee { amount, token }`: a token-denominated charge. -/
structure Fee where
  amount : Nat
  token : Nat
deriving DecidableEq, Repr

/-- Source error enum `DecryptionErr`. -/
inductive DecryptionErr where
  | DecryptedHash
  | InvalidTx
  | InvalidWrapperTx
  | Unsigned
  | SigError (msg : String)
deriving DecidableEq, Repr

/-- Equality of fallible results is decidable (needed to evaluate the
protocol functions on concrete inputs). -/
def exceptDecEq {ε α : Type} [DecidableEq ε] [DecidableEq α] :
    (a b : Except ε α) → Decidable (a = b)
  | Except.error e1, Except.error e2 =>
    if h : e1 = e2 then isTrue (by rw [h]) else isFalse (by simp [h])
  | Except.error _, Except.ok _ => isFalse (by simp)
  | Except.ok _, Except.error _ => isFalse (by simp)
  | Except.ok a1, Except.ok a2 =>
    if h : a1 = a2 then isTrue (by rw [h]) else isFalse (by simp [h])

instance {ε α : Type} [DecidableEq ε] [DecidableEq α] :
    DecidableEq (Except ε α) := exceptDecEq

/-! ## The outer envelope and the signed-data wrapper

`proto::Tx` and `SignedTxData` are repository types that are not among
the provided sources; they are modelled from the spec (§6): the outer
envelope is `{code: bytes, data: optional bytes}` with `to_bytes` and
`sign`, and the signed-data wrapper is `{data: optional bytes,
signature}`. -/

/-- Modelled from the spec: the outer envelope `proto::Tx`
`{code, data}`. -/
structure Tx where
  code : List Nat
  data : Option (List Nat)
deriving DecidableEq, Repr

/-- Modelled from the spec: `Tx::to_bytes`, the envelope's canonical
serialized form (fixed field order, length-prefixed byte strings). -/
def Tx.toBytes (tx : Tx) : List Nat := serBytes tx.code ++ serOptBytes tx.data

/-- Modelled from the spec: `Tx::try_from(bytes)`, the envelope
decoder used on the decrypted payload; the full input must decode. -/
def parseTxAll (bs : List Nat) : Option Tx :=
  match parseBytes bs with
  | none => none
  | some (code, r) =>
  match parseOptBytes r with
  | some (d, []) => some { code := code, data := d }
  | _ => none

/-- Modelled from the spec: `SignedTxData` `{data, sig}`, the
signed-data wrapper from `types::key::ed25519`. -/
structure SignedTxData where
  data : Option (List Nat)
  sig : Sig
deriving DecidableEq, Repr

/-- Modelled from the spec: Borsh serialization of a signature (part
of the signed-data wrapper's canonical form). -/
def serSig (s : Sig) : List Nat := serNat s.signer ++ serBytes s.message

/-- Modelled from the spec: reading a signature back. -/
def parseSig (bs : List Nat) : Option (Sig × List Nat) :=
  match parseNat bs with
  | none => none
  | some (sgn, bs1) =>
  match parseBytes bs1 with
  | none => none
  | some (m, bs2) => some ({ signer := sgn, message := m }, bs2)

/-- Modelled from the spec: Borsh serialization of `SignedTxData`
(fields in declaration order). -/
def SignedTxData.borshSer (s : SignedTxData) : List Nat :=
  serOptBytes s.data ++ serSig s.sig

/-- Modelled from the spec: reading a `SignedTxData` back. -/
def parseSignedTxData (bs : List Nat) : Option (SignedTxData × List Nat) :=
  match parseOptBytes bs with
  | none => none
  | some (d, bs1) =>
  match parseSig bs1 with
  | none => none
  | some (s, bs2) => some ({ data := d, sig := s }, bs2)

/-- Modelled from the spec: `SignedTxData::try_from_slice` — Borsh's
slice decoder, which additionally requires the whole input to be
consumed. -/
def SignedTxData.tryFromSlice (bs : List Nat) : Option SignedTxData :=
  match parseSignedTxData bs with
  | some (s, []) => some s
  | _ => none

/-- Modelled from the spec: `Tx::sign` — sign the serialized bytes of
the envelope as it stands, then wrap the envelope's data (together
with the produced signature) into a `SignedTxData` which becomes the
new data field. -/
def Tx.sign (tx : Tx) (keypair : Nat) : Tx :=
  { code := tx.code
    data := some (SignedTxData.borshSer
      { data := tx.data, sig := signBytes keypair tx.toBytes }) }

theorem parseSig_ser (s : Sig) (r : List Nat) :
    parseSig (serSig s ++ r) = some (s, r) := by
  simp [serSig, parseSig, serNat, parseNat, parseBytes_ser]

theorem parseSignedTxData_ser (s : SignedTxData) (r : List Nat) :
    parseSignedTxData (SignedTxData.borshSer s ++ r) = some (s, r) := by
  simp [SignedTxData.borshSer, parseSignedTxData, parseOptBytes_ser, parseSig_ser]

theorem tryFromSlice_ser (s : SignedTxData) :
    SignedTxData.tryFromSlice (SignedTxData.borshSer s) = some s := by
  have h := parseSignedTxData_ser s []
  rw [List.append_nil] at h
  simp [SignedTxData.tryFromSlice, h]

theorem parseTxAll_toBytes (t : Tx) : parseTxAll (Tx.toBytes t) = some t := by
  have h := parseOptBytes_ser t.data []
  rw [List.append_nil] at h
  simp [Tx.toBytes, parseTxAll, parseBytes_ser, h]

theorem toBytes_inj {t1 t2 : Tx} (h : Tx.toBytes t1 = Tx.toBytes t2) :
    t1 = t2 := by
  have h1 := parseTxAll_toBytes t1
  rw [h, parseTxAll_toBytes t2] at h1
  exact (Option.some.injEq _ _ ▸ h1).symm

/-! ## WrapperTx (source lines 256–379) -/

/-- Source `WrapperTx`: fee and gas metadata, the fee payer's public
key, the epoch, the encrypted payload, and the SHA-256 commitment to
the plaintext of the encrypted payload. -/
structure WrapperTx where
  fee : Fee
  pk : Nat
  epoch : Nat
  gas_limit : GasLimit
  inner_tx : EncryptedTx
  tx_hash : List Nat
deriving DecidableEq, Repr

/-- Source Borsh serialization of `WrapperTx` (derived; fields in
declaration order; `gas_limit` and `inner_tx` use their custom
impls). -/
def WrapperTx.borshSer (w : WrapperTx) : List Nat :=
  serNat w.fee.amount ++ serNat w.fee.token ++ serNat w.pk ++ serNat w.epoch ++
    w.gas_limit.borshSer ++
    (serBytes [w.inner_tx.nonce] ++ serBytes w.inner_tx.ciphertext ++
      serBytes [w.inner_tx.auth_tag]) ++
    serBytes w.tx_hash

/-- Source `impl BorshDeserialize for EncryptedTx`: three
length-prefixed buffers, the first and last of which must decode as
canonical curve points. -/
def parseEncryptedTx (bs : List Nat) : Option (EncryptedTx × List Nat) :=
  match parseBytes bs with
  | none => none
  | some (nb, bs1) =>
  match parseBytes bs1 with
  | none => none
  | some (ct, bs2) =>
  match parseBytes bs2 with
  | none => none
  | some (tb, bs3) =>
  match nb, tb with
  | [nonce], [tag] => some ({ nonce := nonce, ciphertext := ct, auth_tag := tag }, bs3)
  | _, _ => none

/-- Source Borsh deserialization of `WrapperTx` (derived; consumes a
prefix of the input and leaves the rest). -/
def parseWrapperTx (bs : List Nat) : Option (WrapperTx × List Nat) :=
  match parseNat bs with
  | none => none
  | some (amount, bs1) =>
  match parseNat bs1 with
  | none => none
  | some (token, bs2) =>
  match parseNat bs2 with
  | none => none
  | some (pk, bs3) =>
  match parseNat bs3 with
  | none => none
  | some (epoch, bs4) =>
  match parseGasLimit bs4 with
  | none => none
  | some (gl, bs5) =>
  match parseEncryptedTx bs5 with
  | none => none
  | some (itx, bs6) =>
  match parseBytes bs6 with
  | none => none
  | some (h, bs7) =>
    some ({ fee := { amount := amount, token := token }, pk := pk, epoch := epoch,
            gas_limit := gl, inner_tx := itx, tx_hash := h }, bs7)

/-- What a Borsh round trip does to a `WrapperTx`: every field comes
back unchanged except `gas_limit`, which is re-derived from its
expanded `u64` value by the rounding-up rule. -/
def WrapperTx.requantize (w : WrapperTx) : WrapperTx :=
  { w with gas_limit := GasLimit.ofU64 w.gas_limit.toU64 }

/-- Source `WrapperTx::new`: encrypt the inner transaction's bytes
under the network encryption key (the source's fixed
prime-subgroup-generator placeholder) and store the SHA-256 digest of
those bytes as the commitment; the encryption randomness is passed
explicitly. -/
def WrapperTx.new (fee : Fee) (keypair : Nat) (epoch : Nat) (gas_limit : GasLimit)
    (tx : Tx) (rand : Nat) : WrapperTx :=
  { fee := fee
    pk := keypair
    epoch := epoch
    gas_limit := gas_limit
    inner_tx := EncryptedTx.encrypt tx.toBytes encGenPub rand
    tx_hash := sha256 tx.toBytes }

/-- Source `WrapperTx::validate_ciphertext`: delegate to the
ciphertext's structural check (reads only `inner_tx`). -/
def WrapperTx.validate_ciphertext (w : WrapperTx) : Bool :=
  w.inner_tx.check

/-- Source `WrapperTx::decrypt`: decrypt the payload, compare the
SHA-256 digest of the decrypted bytes with the stored commitment
(`DecryptedHash` on mismatch), then decode the bytes as a `Tx`
(`InvalidTx` on failure). -/
def WrapperTx.decrypt (w : WrapperTx) (privkey : Nat) : Except DecryptionErr Tx :=
  let decrypted := w.inner_tx.decrypt privkey
  if sha256 decrypted ≠ w.tx_hash then
    Except.error DecryptionErr.DecryptedHash
  else
    match parseTxAll decrypted with
    | some tx => Except.ok tx
    | none => Except.error DecryptionErr.InvalidTx

/-- Source `WrapperTx::sign`: serialize the wrapper, make it the data
of a fresh envelope with empty code, and sign that envelope. -/
def WrapperTx.sign (w : WrapperTx) (keypair : Nat) : Tx :=
  Tx.sign { code := [], data := some w.borshSer } keypair

/-- Source `impl TryFrom<Tx> for WrapperTx`: accept only if the
envelope's data holds a `SignedTxData` with non-empty inner data
(else `Unsigned`), the inner data deserializes to a `WrapperTx` (else
`InvalidWrapperTx`), and the signature verifies under the wrapper's
own `pk` against the envelope's bytes with its data field replaced by
the inner data (else `SigError`). -/
def WrapperTx.tryFrom (tx : Tx) : Except DecryptionErr WrapperTx :=
  match tx.data.map SignedTxData.tryFromSlice with
  | some (some { data := some data, sig := sig }) =>
    (match parseWrapperTx data with
     | none => Except.error DecryptionErr.InvalidWrapperTx
     | some (wrapper, _) =>
       match verify_signature_raw wrapper.pk
           (Tx.toBytes { code := tx.code, data := some data }) sig with
       | Except.error err => Except.error (DecryptionErr.SigError err)
       | Except.ok _ => Except.ok wrapper)
  | _ => Except.error DecryptionErr.Unsigned

/-- The acceptance procedure of `try_from` exactly as the spec words
it, as three sequential short-circuiting steps (for the refinement
theorem). -/
def tryFromSpec (tx : Tx) : Except DecryptionErr WrapperTx :=
  match tx.data with
  | none => Except.error DecryptionErr.Unsigned
  | some d =>
  match SignedTxData.tryFromSlice d with
  | none => Except.error DecryptionErr.Unsigned
  | some signed =>
  match signed.data with
  | none => Except.error DecryptionErr.Unsigned
  | some inner =>
  match parseWrapperTx inner with
  | none => Except.error DecryptionErr.InvalidWrapperTx
  | some (wrapper, _) =>
  match verify_signature_raw wrapper.pk
      (Tx.toBytes { code := tx.code, data := some inner }) signed.sig with
  | Except.error err => Except.error (DecryptionErr.SigError err)
  | Except.ok _ => Except.ok wrapper

/-- The tampering procedure of the source test
`test_malleability_attack_detection`: re-encrypt a different plaintext
under the network key and recompute the commitment to match. -/
def WrapperTx.tamper (w : WrapperTx) (malicious : Tx) (rand : Nat) : WrapperTx :=
  { w with
    inner_tx := EncryptedTx.encrypt malicious.toBytes encGenPub rand
    tx_hash := sha256 malicious.toBytes }

/-- The envelope-rebuilding procedure of the same source test: decode
the envelope's `SignedTxData`, substitute the serialized tampered
wrapper as its data, and re-serialize it into the envelope, keeping
the original signature. -/
def substituteWrapper (e : Tx) (wt : WrapperTx) : Option Tx :=
  match e.data with
  | none => none
  | some d =>
  match SignedTxData.tryFromSlice d with
  | none => none
  | some signed =>
    some { code := e.code
           data := some (SignedTxData.borshSer
             { data := some wt.borshSer, sig := signed.sig }) }

/-! ## Round-trip lemmas -/

theorem parseEncryptedTx_ser (c : EncryptedTx) (r : List Nat) :
    parseEncryptedTx (serBytes [c.nonce] ++ (serBytes c.ciphertext ++
      (serBytes [c.auth_tag] ++ r))) = some (c, r) := by
  simp [parseEncryptedTx, parseBytes_ser, List.append_assoc]

theorem parseGasLimit_ser (gl : GasLimit) (r : List Nat) :
    parseGasLimit (GasLimit.borshSer gl ++ r) = some (GasLimit.ofU64 gl.toU64, r) := by
  simp [GasLimit.borshSer, parseGasLimit, serNat, parseNat]

theorem parseWrapperTx_ser (w : WrapperTx) (r : List Nat) :
    parseWrapperTx (w.borshSer ++ r) = some (w.requantize, r) := by
  simp [WrapperTx.borshSer, parseWrapperTx, serNat, parseNat, parseGasLimit,
    GasLimit.borshSer, parseEncryptedTx_ser, parseBytes_ser,
    WrapperTx.requantize, List.append_assoc]

theorem gasLimit_ofU64_mul (m : Nat) :
    GasLimit.ofU64 (m * GAS_LIMIT_RESOLUTION) = ⟨m⟩ := by
  unfold GasLimit.ofU64
  have hpos : 0 < GAS_LIMIT_RESOLUTION := by decide
  rw [Nat.mul_div_cancel m hpos]
  simp [Nat.mul_comm GAS_LIMIT_RESOLUTION m]

theorem gasLimit_toU64_of_lt (gl : GasLimit)
    (h : gl.multiplier * GAS_LIMIT_RESOLUTION < U64) :
    gl.toU64 = gl.multiplier * GAS_LIMIT_RESOLUTION := Nat.mod_eq_of_lt h

theorem requantize_of_lt (w : WrapperTx)
    (h : w.gas_limit.multiplier * GAS_LIMIT_RESOLUTION < U64) :
    w.requantize = w := by
  unfold WrapperTx.requantize
  rw [gasLimit_toU64_of_lt _ h, gasLimit_ofU64_mul]

theorem borshSer_inj_tx_hash {w1 w2 : WrapperTx}
    (h : w1.borshSer = w2.borshSer) : w1.tx_hash = w2.tx_hash := by
  have h1 := parseWrapperTx_ser w1 []
  rw [List.append_nil] at h1
  have h2 := parseWrapperTx_ser w2 []
  rw [List.append_nil] at h2
  rw [h, h2] at h1
  have : w2.requantize = w1.requantize := by
    simpa using congrArg (fun o => Option.map Prod.fst o) h1
  exact (congrArg WrapperTx.tx_hash this).symm

theorem tryFrom_envelope (code b : List Nat) (s : Sig) :
    WrapperTx.tryFrom
        { code := code
          data := some (SignedTxData.borshSer { data := some b, sig := s }) } =
      match parseWrapperTx b with
      | none => Except.error DecryptionErr.InvalidWrapperTx
      | some (wrapper, _) =>
        match verify_signature_raw wrapper.pk
            (Tx.toBytes { code := code, data := some b }) s with
        | Except.error err => Except.error (DecryptionErr.SigError err)
        | Except.ok _ => Except.ok wrapper := by
  simp [WrapperTx.tryFrom, tryFromSlice_ser]

theorem tryFrom_sign (w : WrapperTx) (kp : Nat) (hpk : w.pk = kp) :
    WrapperTx.tryFrom (w.sign kp) = Except.ok w.requantize := by
  unfold WrapperTx.sign Tx.sign
  rw [tryFrom_envelope]
  have h1 := parseWrapperTx_ser w []
  rw [List.append_nil] at h1
  rw [h1]
  simp [verify_signature_raw, signBytes, WrapperTx.requantize, hpk]

/-! ## GasLimit facts -/

theorem ofU64_multiplier (n : Nat) :
    (GasLimit.ofU64 n).multiplier =
      (n + GAS_LIMIT_RESOLUTION - 1) / GAS_LIMIT_RESOLUTION := by
  unfold GasLimit.ofU64
  split
  next h =>
    show n / GAS_LIMIT_RESOLUTION + 1 = _
    simp only [GAS_LIMIT_RESOLUTION] at *
    omega
  next h =>
    show n / GAS_LIMIT_RESOLUTION = _
    simp only [GAS_LIMIT_RESOLUTION] at *
    omega

/-- C4 (amended): for every `u64` input `n`, `GasLimit::from(n)` stores
the multiplier `ceil(n / RESOLUTION)`, and `from` applied to an exact
multiple `m * RESOLUTION` is a fixed point with multiplier `m`; the
round trip back to `u64` equals `RESOLUTION * ceil(n / RESOLUTION)`
whenever that value fits in a `u64`, i.e. for
`n ≤ 18446744073709000000` (beyond that the `u64` product
`multiplier * RESOLUTION` wraps modulo `2 ^ 64`). -/
theorem gasLimit_from_quantizes (n m : Nat) :
    (GasLimit.ofU64 n).multiplier =
        (n + GAS_LIMIT_RESOLUTION - 1) / GAS_LIMIT_RESOLUTION ∧
      (n ≤ 18446744073709000000 →
        (GasLimit.ofU64 n).toU64 =
          GAS_LIMIT_RESOLUTION *
            ((n + GAS_LIMIT_RESOLUTION - 1) / GAS_LIMIT_RESOLUTION)) ∧
      GasLimit.ofU64 (m * GAS_LIMIT_RESOLUTION) = ⟨m⟩ := by
  refine ⟨ofU64_multiplier n, ?_, gasLimit_ofU64_mul m⟩
  intro hn
  have h1 := ofU64_multiplier n
  have hceil : (n + GAS_LIMIT_RESOLUTION - 1) / GAS_LIMIT_RESOLUTION ≤
      18446744073709 := by
    simp only [GAS_LIMIT_RESOLUTION]
    omega
  have hU : U64 = 18446744073709551616 := by decide
  have hlt : (GasLimit.ofU64 n).multiplier * GAS_LIMIT_RESOLUTION < U64 := by
    rw [h1, hU]
    simp only [GAS_LIMIT_RESOLUTION] at *
    omega
  rw [gasLimit_toU64_of_lt _ hlt, h1, Nat.mul_comm]

/-- Witness for the amended C4 at `n = 1000001`, `m = 5`. -/
theorem gasLimit_from_quantizes_witness :
    1000001 ≤ 18446744073709000000 ∧
      (GasLimit.ofU64 1000001).toU64 =
        GAS_LIMIT_RESOLUTION *
          ((1000001 + GAS_LIMIT_RESOLUTION - 1) / GAS_LIMIT_RESOLUTION) :=
  ⟨by decide, (gasLimit_from_quantizes 1000001 5).2.1 (by decide)⟩

/-- Counterexample to C4 as stated: at the `u64` input
`n = 2 ^ 64 - 1` the stored multiplier is `ceil(n / RESOLUTION) =
18446744073710`, but converting back to `u64` wraps modulo `2 ^ 64`
(giving `448384`), so it does not equal
`RESOLUTION * ceil(n / RESOLUTION)`. -/
theorem gasLimit_from_quantizes_cex :
    (GasLimit.ofU64 18446744073709551615).toU64 ≠
      GAS_LIMIT_RESOLUTION *
        ((18446744073709551615 + GAS_LIMIT_RESOLUTION - 1) /
          GAS_LIMIT_RESOLUTION) := by decide

/-- C5 (amended): the refund policy, for any multiplier `1 ≤ m` whose
expanded limit `L = m * RESOLUTION` fits in a `u64` and any `u64`
`used_gas`: below `L - RESOLUTION` the refund is exactly `RESOLUTION`,
at or above `L` it is `0`, in between it is `L - used_gas`; it never
exceeds `RESOLUTION`.  (For `m` with `m * RESOLUTION ≥ 2 ^ 64` the
`u64` product wraps and the policy no longer holds as stated.) -/
theorem gasLimit_refund_policy (m used : Nat) (hm : 1 ≤ m)
    (hfit : m * GAS_LIMIT_RESOLUTION < U64) (hused : used < U64) :
    (used < m * GAS_LIMIT_RESOLUTION - GAS_LIMIT_RESOLUTION →
        GasLimit.refund_amount ⟨m⟩ used = GAS_LIMIT_RESOLUTION) ∧
      (m * GAS_LIMIT_RESOLUTION ≤ used →
        GasLimit.refund_amount ⟨m⟩ used = 0) ∧
      (m * GAS_LIMIT_RESOLUTION - GAS_LIMIT_RESOLUTION ≤ used →
        used < m * GAS_LIMIT_RESOLUTION →
        GasLimit.refund_amount ⟨m⟩ used = m * GAS_LIMIT_RESOLUTION - used) ∧
      GasLimit.refund_amount ⟨m⟩ used ≤ GAS_LIMIT_RESOLUTION := by
  have hR : GAS_LIMIT_RESOLUTION ≤ m * GAS_LIMIT_RESOLUTION := by
    have := Nat.mul_le_mul_right GAS_LIMIT_RESOLUTION hm
    simpa using this
  have htoU : (GasLimit.mk m).toU64 = m * GAS_LIMIT_RESOLUTION :=
    Nat.mod_eq_of_lt hfit
  have hguard : ((GasLimit.mk m).toU64 + U64 - GAS_LIMIT_RESOLUTION) % U64 =
      m * GAS_LIMIT_RESOLUTION - GAS_LIMIT_RESOLUTION := by
    rw [htoU]
    have hU0 : 0 < U64 := by decide
    have heq : m * GAS_LIMIT_RESOLUTION + U64 - GAS_LIMIT_RESOLUTION =
        U64 + (m * GAS_LIMIT_RESOLUTION - GAS_LIMIT_RESOLUTION) := by omega
    rw [heq, Nat.add_mod_left]
    exact Nat.mod_eq_of_lt (by omega)
  unfold GasLimit.refund_amount
  rw [hguard, htoU]
  refine ⟨fun h => if_pos h, fun h => ?_, fun ha hb => ?_, ?_⟩
  · rw [if_neg (by omega), if_pos h]
  · rw [if_neg (by omega), if_neg (by omega)]
  · split
    next => exact Nat.le_refl _
    next =>
      split
      next => exact Nat.zero_le _
      next h1 h2 => omega

/-- Witness for the amended C5: the three refund boundary scenarios of
the spec (`m=1, used=RESOLUTION-1 → 1`; `m=2, used=RESOLUTION-1 →
RESOLUTION`; `m=1, used=RESOLUTION+1 → 0`). -/
theorem gasLimit_refund_policy_witness :
    GasLimit.refund_amount ⟨1⟩ 999999 = 1 * GAS_LIMIT_RESOLUTION - 999999 ∧
      GasLimit.refund_amount ⟨2⟩ 999999 = GAS_LIMIT_RESOLUTION ∧
      GasLimit.refund_amount ⟨1⟩ 1000001 = 0 :=
  ⟨(gasLimit_refund_policy 1 999999 (by decide) (by decide) (by decide)).2.2.1
      (by decide) (by decide),
    (gasLimit_refund_policy 2 999999 (by decide) (by decide) (by decide)).1
      (by decide),
    (gasLimit_refund_policy 1 1000001 (by decide) (by decide) (by decide)).2.1
      (by decide)⟩

/-- Counterexample to C5 as stated: for the valid `u64` multiplier
`m = 18446744073710` and `used_gas = 2 ^ 64 - 1`, the claim's middle
branch applies (`L - RESOLUTION ≤ used_gas < L` for
`L = m * RESOLUTION`) and demands a refund of `L - used_gas = 448385`,
but the code's wrapped `u64` limit is `448384 ≤ used_gas`, so it
refunds `0`; under checked (debug) semantics the same call panics
instead (`u64::from` overflows). -/
theorem gasLimit_refund_policy_cex :
    1 ≤ 18446744073710 ∧
      18446744073710 * GAS_LIMIT_RESOLUTION - GAS_LIMIT_RESOLUTION ≤
        18446744073709551615 ∧
      18446744073709551615 < 18446744073710 * GAS_LIMIT_RESOLUTION ∧
      GasLimit.refund_amount ⟨18446744073710⟩ 18446744073709551615 = 0 ∧
      GasLimit.refund_amount ⟨18446744073710⟩ 18446744073709551615 ≠
        18446744073710 * GAS_LIMIT_RESOLUTION - 18446744073709551615 ∧
      GasLimit.refundAmountChecked ⟨18446744073710⟩ 18446744073709551615 =
        none := by decide

/-- C6 (amended): Borsh serialization of `GasLimit` writes the
expanded raw `u64` value (`multiplier * RESOLUTION`, wrapped modulo
`2 ^ 64`), not the multiplier; deserialization re-derives the
multiplier by the rounding-up rule, so decoding a `GasLimit`'s own
encoding is the identity whenever `multiplier * RESOLUTION` fits in a
`u64`, and decoding an arbitrary `u64` that is not a multiple of
`RESOLUTION` rounds up.  (For multipliers whose expanded value
overflows a `u64` the round trip shrinks the multiplier.) -/
theorem gasLimit_borsh_roundtrip (gl : GasLimit) (raw : Nat) :
    GasLimit.borshSer gl = serNat (gl.multiplier * GAS_LIMIT_RESOLUTION % U64) ∧
      (gl.multiplier * GAS_LIMIT_RESOLUTION < U64 →
        parseGasLimit (GasLimit.borshSer gl) = some (gl, [])) ∧
      (¬ GAS_LIMIT_RESOLUTION ∣ raw →
        parseGasLimit (serNat raw) =
          some (⟨raw / GAS_LIMIT_RESOLUTION + 1⟩, [])) := by
  refine ⟨rfl, ?_, ?_⟩
  · intro h
    have h1 : parseGasLimit (GasLimit.borshSer gl) =
        some (GasLimit.ofU64 gl.toU64, []) := by
      simp [GasLimit.borshSer, parseGasLimit, serNat, parseNat]
    rw [h1, gasLimit_toU64_of_lt gl h, gasLimit_ofU64_mul]
  · intro h
    have hmod : raw % GAS_LIMIT_RESOLUTION ≠ 0 := by
      intro hc
      exact h (Nat.dvd_of_mod_eq_zero hc)
    have h1 : parseGasLimit (serNat raw) = some (GasLimit.ofU64 raw, []) := by
      simp [parseGasLimit, serNat, parseNat]
    rw [h1]
    unfold GasLimit.ofU64
    rw [if_pos]
    simp only [GAS_LIMIT_RESOLUTION] at *
    omega

/-- Witness for the amended C6 at `multiplier = 3` and `raw = 1000001`. -/
theorem gasLimit_borsh_roundtrip_witness :
    parseGasLimit (GasLimit.borshSer ⟨3⟩) = some (⟨3⟩, []) ∧
      parseGasLimit (serNat 1000001) = some (⟨2⟩, []) :=
  ⟨(gasLimit_borsh_roundtrip ⟨3⟩ 1000001).2.1 (by decide),
    (gasLimit_borsh_roundtrip ⟨3⟩ 1000001).2.2 (by decide)⟩

/-- Counterexample to C6 as stated: the valid `u64` multiplier
`18446744073710` serializes to the wrapped raw value `448384`, which
decodes to multiplier `1`, so deserializing this `GasLimit`'s own
serialization does not yield an equal `GasLimit`. -/
theorem gasLimit_borsh_roundtrip_cex :
    parseGasLimit (GasLimit.borshSer ⟨18446744073710⟩) = some (⟨1⟩, []) ∧
      GasLimit.mk 1 ≠ ⟨18446744073710⟩ := by decide

/-- C7: the self-describing text encoding presents a `GasLimit` as the
decimal rendering of its expanded value: `GasLimit{multiplier:1}`
serializes to exactly `"1000000"`, and the text `"1000001"`
deserializes (rounding up) to `GasLimit{multiplier:2}`. -/
theorem gasLimit_serde_text_scenario :
    GasLimit.serdeText ⟨1⟩ = "1000000" ∧
      GasLimit.fromSerdeText "1000001" = some ⟨2⟩ := by decide

/-- C9: with `multiplier = 0` the first branch of `refund_amount`
computes the `u64` subtraction `0 - RESOLUTION`: under checked (debug)
semantics the call panics for every `used_gas` (the error/no-refund
branch is unreachable only given `multiplier ≥ 1`), and under wrapping
semantics the guard becomes `used_gas < 2 ^ 64 - RESOLUTION`, so the
call refunds `RESOLUTION` for every such `used_gas` — including all
`used_gas > 0`, which exceed the declared limit `0`. -/
theorem refund_amount_multiplier_zero (used : Nat) :
    GasLimit.refundAmountChecked ⟨0⟩ used = none ∧
      (used < U64 - GAS_LIMIT_RESOLUTION →
        GasLimit.refund_amount ⟨0⟩ used = GAS_LIMIT_RESOLUTION) ∧
      (U64 - GAS_LIMIT_RESOLUTION ≤ used →
        GasLimit.refund_amount ⟨0⟩ used = 0) := by
  refine ⟨?_, ?_, ?_⟩
  · unfold GasLimit.refundAmountChecked
    rw [if_neg (by decide), if_pos (by decide)]
  · intro h
    have hg : ((GasLimit.mk 0).toU64 + U64 - GAS_LIMIT_RESOLUTION) % U64 =
        U64 - GAS_LIMIT_RESOLUTION := by decide
    unfold GasLimit.refund_amount
    rw [hg, if_pos h]
  · intro h
    have hg : ((GasLimit.mk 0).toU64 + U64 - GAS_LIMIT_RESOLUTION) % U64 =
        U64 - GAS_LIMIT_RESOLUTION := by decide
    have ht : (GasLimit.mk 0).toU64 = 0 := by decide
    unfold GasLimit.refund_amount
    rw [hg, if_neg (by omega), ht, if_pos (Nat.zero_le _)]

/-- Witness for C9 at `used_gas = 1000001 > 0`: the checked call
panics and the wrapping call refunds `RESOLUTION` despite the declared
limit `0` being exceeded. -/
theorem refund_amount_multiplier_zero_witness :
    GasLimit.refundAmountChecked ⟨0⟩ 1000001 = none ∧
      GasLimit.refund_amount ⟨0⟩ 1000001 = GAS_LIMIT_RESOLUTION :=
  ⟨(refund_amount_multiplier_zero 1000001).1,
    (refund_amount_multiplier_zero 1000001).2.1 (by decide)⟩

/-! ## Encryption and WrapperTx protocol facts -/

theorem encrypt_decrypt_gen (msg : List Nat) (rand : Nat) :
    (EncryptedTx.encrypt msg encGenPub rand).decrypt encGenPriv = msg :=
  encrypt_decrypt msg encGenPub rand

/-- C8: for every byte payload and matching encryption keypair,
decrypting an encryption returns exactly the payload; encryption is
randomized — two calls with distinct fresh randomness produce
different ciphertexts, both of which still decrypt to the payload. -/
theorem encryption_roundtrip (msg : List Nat) (key r1 r2 : Nat) :
    (EncryptedTx.encrypt msg key r1).decrypt key = msg ∧
      (r1 ≠ r2 →
        EncryptedTx.encrypt msg key r1 ≠ EncryptedTx.encrypt msg key r2 ∧
          (EncryptedTx.encrypt msg key r2).decrypt key = msg) := by
  refine ⟨encrypt_decrypt msg key r1, fun hne => ⟨?_, encrypt_decrypt msg key r2⟩⟩
  intro h
  exact hne (congrArg EncryptedTx.nonce h)

/-- Witness for C8 at payload `[1,2,3]`, key `7`, randomness `0 ≠ 1`. -/
theorem encryption_roundtrip_witness :
    (EncryptedTx.encrypt [1, 2, 3] 7 0).decrypt 7 = [1, 2, 3] ∧
      (EncryptedTx.encrypt [1, 2, 3] 7 0 ≠ EncryptedTx.encrypt [1, 2, 3] 7 1 ∧
        (EncryptedTx.encrypt [1, 2, 3] 7 1).decrypt 7 = [1, 2, 3]) :=
  ⟨(encryption_roundtrip [1, 2, 3] 7 0 1).1,
    (encryption_roundtrip [1, 2, 3] 7 0 1).2 (by decide)⟩

theorem decrypt_consistent (w : WrapperTx) (b : List Nat) (r priv : Nat)
    (hi : w.inner_tx = EncryptedTx.encrypt b encGenPub r)
    (hh : w.tx_hash = sha256 b) (hp : priv = encGenPriv) :
    w.decrypt priv =
      match parseTxAll b with
      | some t => Except.ok t
      | none => Except.error DecryptionErr.InvalidTx := by
  subst hp
  have hd : w.inner_tx.decrypt encGenPriv = b := by
    rw [hi]
    exact encrypt_decrypt_gen b r
  simp only [WrapperTx.decrypt, hd, hh]
  rw [if_neg (not_not_intro rfl)]

/-- C2: `decrypt` first decrypts `inner_tx` and compares the SHA-256
digest of the result against the stored `tx_hash`: on mismatch it
fails with `DecryptedHash` without attempting to parse; on match it
fails with `InvalidTx` exactly when the bytes do not decode as an
inner transaction, and returns the decoded transaction otherwise.
`validate_ciphertext` reads only `inner_tx`, so a wrapper built by
`new` whose `tx_hash` is corrupted still validates but fails
decryption with `DecryptedHash`. -/
theorem decrypt_commitment_first (w : WrapperTx) (priv : Nat)
    (fee : Fee) (kp ep rand : Nat) (gl : GasLimit) (tx : Tx) (h : List Nat) :
    (sha256 (w.inner_tx.decrypt priv) ≠ w.tx_hash →
        w.decrypt priv = Except.error DecryptionErr.DecryptedHash) ∧
      (sha256 (w.inner_tx.decrypt priv) = w.tx_hash →
        parseTxAll (w.inner_tx.decrypt priv) = none →
        w.decrypt priv = Except.error DecryptionErr.InvalidTx) ∧
      (∀ t, sha256 (w.inner_tx.decrypt priv) = w.tx_hash →
        parseTxAll (w.inner_tx.decrypt priv) = some t →
        w.decrypt priv = Except.ok t) ∧
      WrapperTx.validate_ciphertext { w with tx_hash := h } =
        w.validate_ciphertext ∧
      (h ≠ sha256 tx.toBytes →
        WrapperTx.validate_ciphertext
            { WrapperTx.new fee kp ep gl tx rand with tx_hash := h } = true ∧
          WrapperTx.decrypt
              { WrapperTx.new fee kp ep gl tx rand with tx_hash := h }
              encGenPriv =
            Except.error DecryptionErr.DecryptedHash) := by
  refine ⟨?_, ?_, ?_, rfl, ?_⟩
  · intro hne
    simp only [WrapperTx.decrypt]
    rw [if_pos hne]
  · intro he hp
    simp only [WrapperTx.decrypt]
    rw [if_neg (not_not_intro he), hp]
  · intro t he hp
    simp only [WrapperTx.decrypt]
    rw [if_neg (not_not_intro he), hp]
  · intro hne
    constructor
    · exact encrypt_check tx.toBytes encGenPub rand
    · have hd : ({ WrapperTx.new fee kp ep gl tx rand with
          tx_hash := h } : WrapperTx).inner_tx.decrypt encGenPriv =
          tx.toBytes := encrypt_decrypt_gen tx.toBytes rand
      simp only [WrapperTx.decrypt, hd]
      rw [if_pos]
      exact Ne.symm hne

/-- Witness for C2: a wrapper over the inner transaction
`{code := [5], data := none}` whose commitment is corrupted to `[0]`
still validates but decryption reports `DecryptedHash`. -/
theorem decrypt_commitment_first_witness :
    ([0] ≠ sha256 (Tx.toBytes ⟨[5], none⟩)) ∧
      (WrapperTx.validate_ciphertext
          { WrapperTx.new ⟨1, 2⟩ 3 4 ⟨1⟩ ⟨[5], none⟩ 6 with
            tx_hash := [0] } = true ∧
        WrapperTx.decrypt
            { WrapperTx.new ⟨1, 2⟩ 3 4 ⟨1⟩ ⟨[5], none⟩ 6 with
              tx_hash := [0] } encGenPriv =
          Except.error DecryptionErr.DecryptedHash) :=
  ⟨by decide,
    (decrypt_commitment_first (WrapperTx.new ⟨1, 2⟩ 3 4 ⟨1⟩ ⟨[5], none⟩ 6) 0
        ⟨1, 2⟩ 3 4 6 ⟨1⟩ ⟨[5], none⟩ [0]).2.2.2.2 (by decide)⟩

/-- C3: `try_from` is exactly the spec's three-step short-circuiting
acceptance procedure — (a) decode a signed-data wrapper with non-empty
inner data or fail `Unsigned`; (b) decode the inner data as a
`WrapperTx` or fail `InvalidWrapperTx`; (c) verify the recorded
signature under the wrapper's declared `pk` against the reassembled
envelope bytes or fail `SigError` with the verifier's message; no
partial success. -/
theorem tryFrom_acceptance_procedure (tx : Tx) :
    WrapperTx.tryFrom tx = tryFromSpec tx := by
  unfold WrapperTx.tryFrom tryFromSpec
  cases htx : tx.data with
  | none => rfl
  | some d =>
    simp only [Option.map]
    cases hs : SignedTxData.tryFromSlice d with
    | none => rfl
    | some signed =>
      cases signed with
      | mk sd ssig =>
        cases sd with
        | none => rfl
        | some inner => rfl

/-- C10 (amended): signing a `WrapperTx` with the keypair whose public
key it declares and converting the envelope back through `try_from`
succeeds and returns the original wrapper field by field, provided the
wrapper's expanded gas limit fits in a `u64` (otherwise `try_from`
still succeeds but returns a re-rounded, smaller `gas_limit`; and
signing with a keypair other than the declared `pk` is rejected with
`SigError`). -/
theorem sign_tryFrom_roundtrip (w : WrapperTx) (kp : Nat)
    (hpk : w.pk = kp)
    (hfit : w.gas_limit.multiplier * GAS_LIMIT_RESOLUTION < U64) :
    WrapperTx.tryFrom (w.sign kp) = Except.ok w := by
  rw [tryFrom_sign w kp hpk, requantize_of_lt w hfit]

/-- Witness for the amended C10 on a concrete wrapper signed with its
own declared key. -/
theorem sign_tryFrom_roundtrip_witness :
    WrapperTx.tryFrom
        (WrapperTx.sign ⟨⟨1, 2⟩, 3, 4, ⟨5⟩, ⟨6, [7, 8], 9⟩, [10]⟩ 3) =
      Except.ok ⟨⟨1, 2⟩, 3, 4, ⟨5⟩, ⟨6, [7, 8], 9⟩, [10]⟩ :=
  sign_tryFrom_roundtrip ⟨⟨1, 2⟩, 3, 4, ⟨5⟩, ⟨6, [7, 8], 9⟩, [10]⟩ 3
    (by decide) (by decide)

/-- Counterexample to C10 as stated (for *every* keypair / field-equal
result): signing a wrapper declaring `pk = 1` with the keypair `2`
makes `try_from` fail with `SigError` rather than succeed; and a
wrapper whose expanded gas limit overflows a `u64`
(`multiplier = 18446744073710`) round-trips to a *different* wrapper
with `multiplier = 1`. -/
theorem sign_tryFrom_roundtrip_cex :
    WrapperTx.tryFrom (WrapperTx.sign ⟨⟨0, 0⟩, 1, 0, ⟨1⟩, ⟨0, [], 0⟩, []⟩ 2) =
        Except.error (DecryptionErr.SigError sigFailureMsg) ∧
      WrapperTx.tryFrom
          (WrapperTx.sign ⟨⟨0, 0⟩, 1, 0, ⟨18446744073710⟩, ⟨0, [], 0⟩, []⟩ 1) =
        Except.ok ⟨⟨0, 0⟩, 1, 0, ⟨1⟩, ⟨0, [], 0⟩, []⟩ ∧
      GasLimit.mk 1 ≠ ⟨18446744073710⟩ := by decide

/-- C1: anti-malleability.  Take any wrapper produced by `new` and
signed into an outer envelope.  If an attacker replaces `inner_tx`
with a fresh encryption of a different plaintext and `tx_hash` with
that plaintext's digest, the tampered wrapper in isolation still
passes `validate_ciphertext` and decrypts successfully with the
matching private key, but `try_from` on the envelope carrying the
tampered wrapper bytes under the original signature fails with
`SigError`. -/
theorem anti_malleability (fee : Fee) (kp ep : Nat) (gl : GasLimit)
    (tx : Tx) (rand : Nat) (mal : Tx) (rand2 : Nat)
    (hdiff : Tx.toBytes tx ≠ Tx.toBytes mal) :
    (WrapperTx.tamper (WrapperTx.new fee kp ep gl tx rand) mal
        rand2).validate_ciphertext = true ∧
      (WrapperTx.tamper (WrapperTx.new fee kp ep gl tx rand) mal
          rand2).decrypt encGenPriv = Except.ok mal ∧
      ∃ e,
        substituteWrapper (WrapperTx.sign (WrapperTx.new fee kp ep gl tx rand) kp)
            (WrapperTx.tamper (WrapperTx.new fee kp ep gl tx rand) mal rand2) =
          some e ∧
        WrapperTx.tryFrom e =
          Except.error (DecryptionErr.SigError sigFailureMsg) := by
  refine ⟨encrypt_check mal.toBytes encGenPub rand2, ?_, ?_⟩
  · rw [decrypt_consistent _ mal.toBytes rand2 _ rfl rfl rfl,
      parseTxAll_toBytes]
  · refine ⟨{ code := []
              data := some (SignedTxData.borshSer
                { data := some (WrapperTx.tamper
                    (WrapperTx.new fee kp ep gl tx rand) mal rand2).borshSer
                  sig := signBytes kp (Tx.toBytes
                    { code := []
                      data := some (WrapperTx.new fee kp ep gl tx
                        rand).borshSer }) }) }, ?_, ?_⟩
    · simp [WrapperTx.sign, Tx.sign, substituteWrapper, tryFromSlice_ser]
    · rw [tryFrom_envelope]
      have h1 := parseWrapperTx_ser
        (WrapperTx.tamper (WrapperTx.new fee kp ep gl tx rand) mal rand2) []
      rw [List.append_nil] at h1
      have hMM : Tx.toBytes
          { code := []
            data := some (WrapperTx.new fee kp ep gl tx rand).borshSer } ≠
          Tx.toBytes
          { code := []
            data := some (WrapperTx.tamper
              (WrapperTx.new fee kp ep gl tx rand) mal rand2).borshSer } := by
        intro he
        have henv := toBytes_inj he
        have hbs : (WrapperTx.new fee kp ep gl tx rand).borshSer =
            (WrapperTx.tamper (WrapperTx.new fee kp ep gl tx rand) mal
              rand2).borshSer := by
          have hdata := congrArg Tx.data henv
          simpa using hdata
        have hth := borshSer_inj_tx_hash hbs
        exact hdiff (sha256_inj hth)
      have hv : verify_signature_raw
          (WrapperTx.tamper (WrapperTx.new fee kp ep gl tx rand) mal
            rand2).requantize.pk
          (Tx.toBytes
            { code := []
              data := some (WrapperTx.tamper
                (WrapperTx.new fee kp ep gl tx rand) mal rand2).borshSer })
          (signBytes kp (Tx.toBytes
            { code := []
              data := some (WrapperTx.new fee kp ep gl tx rand).borshSer })) =
          Except.error sigFailureMsg := by
        unfold verify_signature_raw
        rw [if_neg]
        intro hand
        exact hMM hand.2
      simp only [h1, hv]

/-- Witness for C1 on concrete transactions `{code := [5]}` and
`{code := [7]}`. -/
theorem anti_malleability_witness :
    Tx.toBytes ⟨[5], none⟩ ≠ Tx.toBytes ⟨[7], none⟩ ∧
      ((WrapperTx.tamper (WrapperTx.new ⟨1, 2⟩ 3 4 ⟨1⟩ ⟨[5], none⟩ 6)
          ⟨[7], none⟩ 8).validate_ciphertext = true ∧
        (WrapperTx.tamper (WrapperTx.new ⟨1, 2⟩ 3 4 ⟨1⟩ ⟨[5], none⟩ 6)
            ⟨[7], none⟩ 8).decrypt encGenPriv = Except.ok ⟨[7], none⟩ ∧
        ∃ e,
          substituteWrapper
              (WrapperTx.sign (WrapperTx.new ⟨1, 2⟩ 3 4 ⟨1⟩ ⟨[5], none⟩ 6) 3)
              (WrapperTx.tamper (WrapperTx.new ⟨1, 2⟩ 3 4 ⟨1⟩ ⟨[5], none⟩ 6)
                ⟨[7], none⟩ 8) =
            some e ∧
          WrapperTx.tryFrom e =
            Except.error (DecryptionErr.SigError sigFailureMsg)) :=
  ⟨by decide,
    anti_malleability ⟨1, 2⟩ 3 4 ⟨1⟩ ⟨[5], none⟩ 6 ⟨[7], none⟩ 8 (by decide)⟩

end Namada
